import Mathlib

/-!
Shallow embedding of the Blender object-distribution scripts
(`DistributeWithinCircle.py`, `DistributeWithinSquare.py`,
`DistributeAndDuplicateWithinCircle.py`, `DistributeAndDuplicateWithinSquare.py`,
`DistributeAndDuplicateObjectsAddon.py`).

All scripts work in the x/y plane (every position is `Vector((x, y, 0))` or has
the z component of the area center, and all length computations are planar),
so points and footprints are pairs of rationals; float arithmetic is embedded
as exact rational arithmetic.  A comparison of the form `sqrt e ⋈ r` that a
script performs on floats is embedded as the equivalent rational comparison
(`sqrtLtB`, `sqrtLeB`, `sqrtGtB`); the lemmas `sqrtLtB_eq_true_iff` etc. prove
that these coincide exactly with the corresponding comparison of `Real.sqrt e`
against `r`.  The pseudo-random stream is an explicit parameter:
`random.uniform(a, b)` becomes `random_uniform a b u` applied to a stream
value `u ∈ [0, 1]`, and the trigonometric circle samplers are embedded over
`ℝ` (`rand_position`); the placement engines take the resulting candidate
stream `ℕ → Vec2` as a parameter.
-/

namespace Blender

/-- Planar vector.  Used both for candidate/committed positions (the scripts
build `Vector((x, y, 0))`) and for object footprints (`obj.dimensions`, of
which only `.x` and `.y` are ever read). -/
structure Vec2 where
  x : ℚ
  y : ℚ
deriving DecidableEq

/-- Squared planar distance, `(p.x - q.x)**2 + (p.y - q.y)**2`.  Every script
compares `sqrt` of this quantity (or the equivalent `(p - q).length`) against
a threshold. -/
def dist2 (p q : Vec2) : ℚ := (p.x - q.x) ^ 2 + (p.y - q.y) ^ 2

/-- Embedding of the float comparison `sqrt s < r` (used by the overlap checks
`dist < min_dist` and by the strict exclusion-zone checks).  For `0 ≤ s` this
equals `Real.sqrt s < r`, see `sqrtLtB_eq_true_iff`. -/
def sqrtLtB (s r : ℚ) : Bool := decide (0 ≤ r) && decide (s < r ^ 2)

/-- Embedding of the float comparison `sqrt s <= r` (used by the non-strict
exclusion-zone check of `DistributeWithinCircle.py`). -/
def sqrtLeB (s r : ℚ) : Bool := decide (0 ≤ r) && decide (s ≤ r ^ 2)

/-- Embedding of the float comparison `sqrt s > r` (used by the circle
boundary checks `... > area_radius`). -/
def sqrtGtB (s r : ℚ) : Bool := decide (r < 0) || decide (r ^ 2 < s)

/-- Embedding of `random.uniform(a, b)`: the library call returns
`a + u * (b - a)` for a generator value `u ∈ [0, 1]`. -/
def random_uniform (a b u : ℚ) : ℚ := a + u * (b - a)

/-- One committed placement, the tuple `(pos, obj_dimensions)` that the
scripts append to `positions` or to a grid cell. -/
structure PlacementRecord where
  pos : Vec2
  dims : Vec2
deriving DecidableEq

/-- Grid cell of a position: `(int(pos.x // grid_size), int(pos.y // grid_size))`.
Python `//` on floats is floor division, and `int` of its (integral) result is
that floor, so this is `⌊· / grid_size⌋` also for negative coordinates. -/
def grid_cell (grid_size : ℚ) (pos : Vec2) : ℤ × ℤ :=
  (⌊pos.x / grid_size⌋, ⌊pos.y / grid_size⌋)

/-- The spatial grid dictionary is represented by the list of records in
insertion order; the sequence stored under a cell key is recovered by
filtering (appends to per-cell buckets preserve exactly this view). -/
def gridCellRecords (grid : List PlacementRecord) (grid_size : ℚ) (c : ℤ × ℤ) :
    List PlacementRecord :=
  grid.filter fun r => decide (grid_cell grid_size r.pos = c)

/-- Embedding of `add_to_grid(pos, obj_dimensions)`: appends the record to
the bucket of its own cell (in the list representation: appends the
record). -/
def add_to_grid (grid : List PlacementRecord) (r : PlacementRecord) :
    List PlacementRecord :=
  grid ++ [r]

/-- The 3×3 neighborhood
`[(cx + dx, cy + dy) for dx in range(-1, 2) for dy in range(-1, 2)]`. -/
def neighbors (c : ℤ × ℤ) : List (ℤ × ℤ) :=
  ([-1, 0, 1] : List ℤ).flatMap fun dx =>
    ([-1, 0, 1] : List ℤ).map fun dy => (c.1 + dx, c.2 + dy)

/-- Separation threshold
`min_dist = max(d1.x, d1.y) / 2 + max(d2.x, d2.y) / 2 + padding`. -/
def min_dist (d1 d2 : Vec2) (padding : ℚ) : ℚ :=
  max d1.x d1.y / 2 + max d2.x d2.y / 2 + padding

/-- Grid-based overlap test shared by the two `DistributeAndDuplicate...`
scripts: scan the records of the 9 neighbor cells of the candidate's cell and
reject when some existing record is closer than `min_dist`. -/
def overlapsGrid (grid : List PlacementRecord) (grid_size padding : ℚ)
    (pos dims : Vec2) : Bool :=
  (neighbors (grid_cell grid_size pos)).any fun nb =>
    (gridCellRecords grid grid_size nb).any fun r =>
      sqrtLtB (dist2 pos r.pos) (min_dist dims r.dims padding)

/-- Linear overlap test of the scripts without a grid: scan all of
`positions`. -/
def overlapsAll (positions : List PlacementRecord) (padding : ℚ)
    (pos dims : Vec2) : Bool :=
  positions.any fun r => sqrtLtB (dist2 pos r.pos) (min_dist dims r.dims padding)

/-- DistributeAndDuplicateWithinCircle.py, lines 43-45: a zone `(center, radius)`
rejects a candidate when `sqrt(...) < zone_radius` (strict). -/
def DADCircle.in_exclusion_zone (pos : Vec2) (z : Vec2 × ℚ) : Bool :=
  sqrtLtB (dist2 pos z.1) z.2

/-- DistributeWithinCircle.py, lines 30-32: `(pos - zone_center).length <=
zone_radius` (non-strict). -/
def DWCircle.in_exclusion_zone (pos : Vec2) (z : Vec2 × ℚ) : Bool :=
  sqrtLeB (dist2 pos z.1) z.2

/-- Rectangle zone test of the two square scripts:
`zone_min.x <= pos.x <= zone_max.x and zone_min.y <= pos.y <= zone_max.y`. -/
def inRectZone (pos : Vec2) (z : Vec2 × Vec2) : Bool :=
  decide (z.1.x ≤ pos.x ∧ pos.x ≤ z.2.x) && decide (z.1.y ≤ pos.y ∧ pos.y ≤ z.2.y)

/-- DistributeAndDuplicateWithinCircle.py, `is_valid_position` (lines 36-59):
circle containment, then circular exclusion zones, then grid overlap. -/
def DADCircle.is_valid_position (area_center : Vec2) (area_radius : ℚ)
    (exclusion_zones : List (Vec2 × ℚ)) (grid_size padding : ℚ)
    (grid : List PlacementRecord) (pos dims : Vec2) : Bool :=
  if sqrtGtB (dist2 pos area_center) area_radius then false
  else if exclusion_zones.any (DADCircle.in_exclusion_zone pos) then false
  else if overlapsGrid grid grid_size padding pos dims then false
  else true

/-- DistributeAndDuplicateWithinSquare.py, `is_valid_position` (lines 35-55):
rectangular exclusion zones, then grid overlap.  There is no boundary
containment check. -/
def DADSquare.is_valid_position (exclusion_zones : List (Vec2 × Vec2))
    (grid_size padding : ℚ) (grid : List PlacementRecord) (pos dims : Vec2) :
    Bool :=
  if exclusion_zones.any (inRectZone pos) then false
  else if overlapsGrid grid grid_size padding pos dims then false
  else true

/-- DistributeWithinCircle.py, `is_valid_position` (lines 24-42): circle
containment, non-strict circular exclusion zones, linear overlap scan. -/
def DWCircle.is_valid_position (area_center : Vec2) (area_radius : ℚ)
    (exclusion_zones : List (Vec2 × ℚ)) (padding : ℚ)
    (positions : List PlacementRecord) (pos dims : Vec2) : Bool :=
  if sqrtGtB (dist2 pos area_center) area_radius then false
  else if exclusion_zones.any (DWCircle.in_exclusion_zone pos) then false
  else if overlapsAll positions padding pos dims then false
  else true

/-- DistributeWithinSquare.py, `is_valid_position` (lines 23-37): rectangular
exclusion zones, linear overlap scan; no boundary containment check. -/
def DWSquare.is_valid_position (exclusion_zones : List (Vec2 × Vec2))
    (padding : ℚ) (positions : List PlacementRecord) (pos dims : Vec2) : Bool :=
  if exclusion_zones.any (inRectZone pos) then false
  else if overlapsAll positions padding pos dims then false
  else true

/-- Addon `is_inside_area`, circle branch: `(pos - area_center).length <=
area_size`. -/
def Addon.is_inside_area_circle (area_center : Vec2) (area_size : ℚ)
    (pos : Vec2) : Bool :=
  sqrtLeB (dist2 pos area_center) area_size

/-- Addon `is_inside_exclusion_zone`, circle branch:
`(pos - zone_center).length < zone_size` (strict). -/
def Addon.is_inside_exclusion_zone_circle (zone_center : Vec2) (zone_size : ℚ)
    (pos : Vec2) : Bool :=
  sqrtLtB (dist2 pos zone_center) zone_size

/-- Addon `is_valid_position` (circle mode, lines 54-67): area containment,
the single exclusion zone, linear overlap scan. -/
def Addon.is_valid_position_circle (area_center : Vec2) (area_size : ℚ)
    (zone_center : Vec2) (zone_size : ℚ) (padding : ℚ)
    (positions : List PlacementRecord) (pos dims : Vec2) : Bool :=
  if !Addon.is_inside_area_circle area_center area_size pos then false
  else if Addon.is_inside_exclusion_zone_circle zone_center zone_size pos then false
  else if overlapsAll positions padding pos dims then false
  else true

/-- Result of one requested copy: the committed position together with the
footprint used for it, or placement failure (the `for ... else: print(...)`
branch after the attempt budget is exhausted). -/
inductive PlacementOutcome where
  | placed (pos dims : Vec2)
  | failed
deriving DecidableEq

/-- The `for attempt in range(1000)` rejection loop for one copy: starting at
stream index `i` with `fuel` attempts left, return the first valid candidate
(and the next unconsumed stream index), or `none` when the budget runs out.
Validation reads the committed state `st` and never changes it. -/
def attemptLoop (valid : List PlacementRecord → Vec2 → Vec2 → Bool)
    (cands : ℕ → Vec2) (st : List PlacementRecord) (dims : Vec2) :
    ℕ → ℕ → Option Vec2 × ℕ
  | i, 0 => (none, i)
  | i, fuel + 1 =>
    if valid st (cands i) dims then (some (cands i), i + 1)
    else attemptLoop valid cands st dims (i + 1) fuel

/-- One requested copy: run the attempt loop with budget `b`; on success
commit the record (`add_to_grid` / `positions.append`), on failure leave the
state untouched. -/
def placeCopy (valid : List PlacementRecord → Vec2 → Vec2 → Bool)
    (cands : ℕ → Vec2) (st : List PlacementRecord) (dims : Vec2) (i b : ℕ) :
    PlacementOutcome × List PlacementRecord × ℕ :=
  match (attemptLoop valid cands st dims i b).1 with
  | some p => (.placed p dims, add_to_grid st ⟨p, dims⟩, (attemptLoop valid cands st dims i b).2)
  | none => (.failed, st, (attemptLoop valid cands st dims i b).2)

/-- The engine loop shared by all five scripts: process the requested copies
in order, threading the committed state and the random-stream index. -/
def runCopies (valid : List PlacementRecord → Vec2 → Vec2 → Bool)
    (cands : ℕ → Vec2) (b : ℕ) :
    List Vec2 → List PlacementRecord → ℕ →
      List PlacementOutcome × List PlacementRecord × ℕ
  | [], st, i => ([], st, i)
  | d :: ds, st, i =>
    let r1 := placeCopy valid cands st d i b
    let r2 := runCopies valid cands b ds r1.2.1 r1.2.2
    (r1.1 :: r2.1, r2.2.1, r2.2.2)

/-- DistributeAndDuplicateWithinCircle.py, `distribute_and_duplicate_objects`:
`grid_size = area_radius / 50`, budget 1000; each selected object contributes
the original placement followed by `num_duplicates` duplicate placements, all
with the object's dimensions (here flattened to `1 + num_duplicates` copies
per object, which is exactly the order the nested loops attempt them in).
`cands` is the stream of sampled candidate positions. -/
def DADCircle.distribute_and_duplicate_objects (area_center : Vec2)
    (area_radius : ℚ) (num_duplicates : ℕ) (exclusion_zones : List (Vec2 × ℚ))
    (padding : ℚ) (selected_objects : List Vec2) (cands : ℕ → Vec2) :
    List PlacementOutcome × List PlacementRecord × ℕ :=
  if selected_objects = [] then ([], [], 0)
  else
    runCopies
      (DADCircle.is_valid_position area_center area_radius exclusion_zones
        (area_radius / 50) padding)
      cands 1000
      (selected_objects.flatMap fun d => List.replicate (1 + num_duplicates) d) [] 0

/-- DistributeAndDuplicateWithinSquare.py:
`grid_size = max((area_max - area_min).x, (area_max - area_min).y) / 100`. -/
def DADSquare.grid_size (area_min area_max : Vec2) : ℚ :=
  max (area_max.x - area_min.x) (area_max.y - area_min.y) / 100

/-- Rectangle candidate sampler of the square scripts:
`rand_x = random.uniform(area_min.x, area_max.x)` and likewise for `y`, from
two generator values `u, v ∈ [0, 1]`. -/
def rectSample (area_min area_max : Vec2) (u v : ℚ) : Vec2 :=
  ⟨random_uniform area_min.x area_max.x u, random_uniform area_min.y area_max.y v⟩

/-- DistributeAndDuplicateWithinSquare.py, `distribute_and_duplicate_objects`:
same engine with the rectangle sampler and rectangle zones. -/
def DADSquare.distribute_and_duplicate_objects (area_min area_max : Vec2)
    (num_duplicates : ℕ) (exclusion_zones : List (Vec2 × Vec2)) (padding : ℚ)
    (selected_objects : List Vec2) (us vs : ℕ → ℚ) :
    List PlacementOutcome × List PlacementRecord × ℕ :=
  if selected_objects = [] then ([], [], 0)
  else
    runCopies
      (DADSquare.is_valid_position exclusion_zones
        (DADSquare.grid_size area_min area_max) padding)
      (fun n => rectSample area_min area_max (us n) (vs n)) 1000
      (selected_objects.flatMap fun d => List.replicate (1 + num_duplicates) d) [] 0

/-- DistributeWithinCircle.py, `distribute_objects_in_area`: one copy per
selected object, linear overlap scan, budget 1000. -/
def DWCircle.distribute_objects_in_area (area_center : Vec2) (area_radius : ℚ)
    (exclusion_zones : List (Vec2 × ℚ)) (padding : ℚ)
    (selected_objects : List Vec2) (cands : ℕ → Vec2) :
    List PlacementOutcome × List PlacementRecord × ℕ :=
  if selected_objects = [] then ([], [], 0)
  else
    runCopies
      (DWCircle.is_valid_position area_center area_radius exclusion_zones padding)
      cands 1000 selected_objects [] 0

/-- DistributeWithinSquare.py, `distribute_objects_in_area`. -/
def DWSquare.distribute_objects_in_area (area_min area_max : Vec2)
    (exclusion_zones : List (Vec2 × Vec2)) (padding : ℚ)
    (selected_objects : List Vec2) (us vs : ℕ → ℚ) :
    List PlacementOutcome × List PlacementRecord × ℕ :=
  if selected_objects = [] then ([], [], 0)
  else
    runCopies (DWSquare.is_valid_position exclusion_zones padding)
      (fun n => rectSample area_min area_max (us n) (vs n)) 1000
      selected_objects [] 0

/-- Addon `distribute_and_duplicate_objects`, circle mode: when
`distribute_only` is set each object is placed once, otherwise
`1 + num_duplicates` times. -/
def Addon.distribute_and_duplicate_objects_circle (area_center : Vec2)
    (area_size : ℚ) (zone_center : Vec2) (zone_size : ℚ) (num_duplicates : ℕ)
    (padding : ℚ) (distribute_only : Bool) (selected_objects : List Vec2)
    (cands : ℕ → Vec2) : List PlacementOutcome × List PlacementRecord × ℕ :=
  if selected_objects = [] then ([], [], 0)
  else
    runCopies
      (Addon.is_valid_position_circle area_center area_size zone_center
        zone_size padding)
      cands 1000
      (selected_objects.flatMap fun d =>
        List.replicate (if distribute_only then 1 else 1 + num_duplicates) d)
      [] 0

noncomputable section

/-- DistributeAndDuplicateWithinCircle.py, lines 66-67 (and 85-86):
`rand_radius = sqrt(random.uniform(0, 1)) * area_radius`. -/
def DADCircle.rand_radius (u area_radius : ℝ) : ℝ := Real.sqrt u * area_radius

/-- DistributeAndDuplicateWithinCircle.py, lines 66-70: polar sample converted
to a Cartesian offset from the area center (z is constant 0 and dropped). -/
def DADCircle.rand_position (cx cy area_radius u angle : ℝ) : ℝ × ℝ :=
  (cx + DADCircle.rand_radius u area_radius * Real.cos angle,
   cy + DADCircle.rand_radius u area_radius * Real.sin angle)

/-- Addon `random_position`, circle branch (lines 70-75):
`rand_radius = sqrt(random.uniform(0, 1)) * area_size`. -/
def Addon.rand_radius (u area_size : ℝ) : ℝ := Real.sqrt u * area_size

/-- Addon `random_position`, circle branch, Cartesian conversion. -/
def Addon.random_position_circle (cx cy area_size u angle : ℝ) : ℝ × ℝ :=
  (cx + Addon.rand_radius u area_size * Real.cos angle,
   cy + Addon.rand_radius u area_size * Real.sin angle)

/-- DistributeWithinCircle.py, line 50: `radius = random.uniform(0, area_radius)`,
i.e. `0 + u * (area_radius - 0)` — the radius itself is uniform on
`[0, area_radius]`, with no square root. -/
def DWCircle.radius_sample (u area_radius : ℝ) : ℝ := 0 + u * (area_radius - 0)

/-- DistributeWithinCircle.py, lines 49-53: Cartesian conversion of its polar
sample. -/
def DWCircle.rand_position (cx cy area_radius u angle : ℝ) : ℝ × ℝ :=
  (cx + DWCircle.radius_sample u area_radius * Real.cos angle,
   cy + DWCircle.radius_sample u area_radius * Real.sin angle)

/-- Squared planar distance over `ℝ`, for statements about the samplers. -/
def dist2R (p q : ℝ × ℝ) : ℝ := (p.1 - q.1) ^ 2 + (p.2 - q.2) ^ 2

end

/-- The records of the committed (`Placed`) outcomes of a run, in order. -/
def placedRecords (os : List PlacementOutcome) : List PlacementRecord :=
  os.filterMap fun o =>
    match o with
    | .placed p d => some ⟨p, d⟩
    | .failed => none

/-- Total number of records held by the spatial index. -/
def totalRecords (st : List PlacementRecord) : ℕ := st.length

/-- The set of grid cells that hold at least one record. -/
def occupiedCells (grid_size : ℚ) (st : List PlacementRecord) : Finset (ℤ × ℤ) :=
  (st.map fun r => grid_cell grid_size r.pos).toFinset

/-- Number of grid cells that hold at least one record. -/
def cellCount (grid_size : ℚ) (st : List PlacementRecord) : ℕ :=
  (occupiedCells grid_size st).card

lemma dist2_nonneg (p q : Vec2) : (0 : ℚ) ≤ dist2 p q := by
  unfold dist2; positivity

lemma dist2_comm (p q : Vec2) : dist2 p q = dist2 q p := by
  unfold dist2; ring

lemma min_dist_comm (d1 d2 : Vec2) (padding : ℚ) :
    min_dist d1 d2 padding = min_dist d2 d1 padding := by
  unfold min_dist; ring

/-- Core fact relating a square-root comparison to its square. -/
lemma Real.sqrt_le_iff_of_nonneg {x y : ℝ} (hx : 0 ≤ x) :
    Real.sqrt x ≤ y ↔ 0 ≤ y ∧ x ≤ y ^ 2 := by
  constructor
  · intro h
    have hy : 0 ≤ y := le_trans (Real.sqrt_nonneg x) h
    refine ⟨hy, ?_⟩
    nlinarith [Real.sq_sqrt hx, Real.sqrt_nonneg x]
  · rintro ⟨hy, hxy⟩
    calc Real.sqrt x ≤ Real.sqrt (y ^ 2) := Real.sqrt_le_sqrt hxy
      _ = y := Real.sqrt_sq hy

lemma sqrtLtB_eq_true_iff {s r : ℚ} (hs : (0 : ℚ) ≤ s) :
    sqrtLtB s r = true ↔ Real.sqrt (s : ℝ) < (r : ℝ) := by
  have hs' : (0 : ℝ) ≤ (s : ℝ) := by exact_mod_cast hs
  constructor
  · intro h
    simp only [sqrtLtB, Bool.and_eq_true, decide_eq_true_eq] at h
    obtain ⟨hr, hlt⟩ := h
    have hr' : (0 : ℝ) ≤ (r : ℝ) := by exact_mod_cast hr
    have hlt' : (s : ℝ) < (r : ℝ) ^ 2 := by exact_mod_cast hlt
    calc Real.sqrt (s : ℝ) < Real.sqrt ((r : ℝ) ^ 2) := Real.sqrt_lt_sqrt hs' hlt'
      _ = (r : ℝ) := Real.sqrt_sq hr'
  · intro h
    have hr' : (0 : ℝ) ≤ (r : ℝ) := le_trans (Real.sqrt_nonneg _) (le_of_lt h)
    have hlt' : (s : ℝ) < (r : ℝ) ^ 2 := by
      nlinarith [Real.sq_sqrt hs', Real.sqrt_nonneg (s : ℝ)]
    simp only [sqrtLtB, Bool.and_eq_true, decide_eq_true_eq]
    exact ⟨by exact_mod_cast hr', by exact_mod_cast hlt'⟩

lemma sqrtLtB_eq_false_iff {s r : ℚ} (hs : (0 : ℚ) ≤ s) :
    sqrtLtB s r = false ↔ (r : ℝ) ≤ Real.sqrt (s : ℝ) := by
  rw [Bool.eq_false_iff, Ne, sqrtLtB_eq_true_iff hs, not_lt]

lemma sqrtLeB_eq_true_iff {s r : ℚ} (hs : (0 : ℚ) ≤ s) :
    sqrtLeB s r = true ↔ Real.sqrt (s : ℝ) ≤ (r : ℝ) := by
  have hs' : (0 : ℝ) ≤ (s : ℝ) := by exact_mod_cast hs
  rw [Real.sqrt_le_iff_of_nonneg hs']
  simp only [sqrtLeB, Bool.and_eq_true, decide_eq_true_eq]
  constructor
  · rintro ⟨hr, hle⟩
    exact ⟨by exact_mod_cast hr, by exact_mod_cast hle⟩
  · rintro ⟨hr, hle⟩
    exact ⟨by exact_mod_cast hr, by exact_mod_cast hle⟩

lemma sqrtGtB_eq_false_iff {s r : ℚ} (hs : (0 : ℚ) ≤ s) :
    sqrtGtB s r = false ↔ Real.sqrt (s : ℝ) ≤ (r : ℝ) := by
  have hs' : (0 : ℝ) ≤ (s : ℝ) := by exact_mod_cast hs
  rw [Real.sqrt_le_iff_of_nonneg hs']
  simp only [sqrtGtB, Bool.or_eq_false_iff, decide_eq_false_iff_not, not_lt]
  constructor
  · rintro ⟨hr, hle⟩
    exact ⟨by exact_mod_cast hr, by exact_mod_cast hle⟩
  · rintro ⟨hr, hle⟩
    exact ⟨by exact_mod_cast hr, by exact_mod_cast hle⟩

lemma random_uniform_mem {a b u : ℚ} (hab : a ≤ b) (h0 : 0 ≤ u) (h1 : u ≤ 1) :
    a ≤ random_uniform a b u ∧ random_uniform a b u ≤ b := by
  unfold random_uniform
  constructor <;> nlinarith

lemma rectSample_mem {amin amax : Vec2} {u v : ℚ} (hx : amin.x ≤ amax.x)
    (hy : amin.y ≤ amax.y) (hu0 : 0 ≤ u) (hu1 : u ≤ 1) (hv0 : 0 ≤ v)
    (hv1 : v ≤ 1) :
    amin.x ≤ (rectSample amin amax u v).x ∧ (rectSample amin amax u v).x ≤ amax.x ∧
      amin.y ≤ (rectSample amin amax u v).y ∧ (rectSample amin amax u v).y ≤ amax.y := by
  obtain ⟨h1, h2⟩ := random_uniform_mem hx hu0 hu1
  obtain ⟨h3, h4⟩ := random_uniform_mem hy hv0 hv1
  exact ⟨h1, h2, h3, h4⟩

lemma attemptLoop_fst_valid {valid : List PlacementRecord → Vec2 → Vec2 → Bool}
    {cands : ℕ → Vec2} {st : List PlacementRecord} {dims : Vec2} :
    ∀ {n i p}, (attemptLoop valid cands st dims i n).1 = some p →
      valid st p dims = true ∧ ∃ m, p = cands m := by
  intro n
  induction n with
  | zero => intro i p h; simp [attemptLoop] at h
  | succ n ih =>
    intro i p h
    by_cases hv : valid st (cands i) dims = true
    · simp only [attemptLoop, hv, if_true] at h
      obtain rfl : cands i = p := by simpa using h
      exact ⟨hv, i, rfl⟩
    · simp only [attemptLoop, hv, if_false, Bool.false_eq_true] at h
      exact ih h

lemma attemptLoop_snd_le {valid : List PlacementRecord → Vec2 → Vec2 → Bool}
    {cands : ℕ → Vec2} {st : List PlacementRecord} {dims : Vec2} :
    ∀ (n i : ℕ), (attemptLoop valid cands st dims i n).2 ≤ i + n := by
  intro n
  induction n with
  | zero => intro i; simp [attemptLoop]
  | succ n ih =>
    intro i
    by_cases hv : valid st (cands i) dims = true
    · simp only [attemptLoop, hv, if_true]
      omega
    · simp only [attemptLoop, hv, if_false, Bool.false_eq_true]
      calc (attemptLoop valid cands st dims (i + 1) n).2 ≤ i + 1 + n := ih (i + 1)
        _ = i + (n + 1) := by omega

/-- A rejected candidate changes nothing: the loop recurses on the same
committed state. -/
lemma attemptLoop_reject {valid : List PlacementRecord → Vec2 → Vec2 → Bool}
    {cands : ℕ → Vec2} {st : List PlacementRecord} {dims : Vec2} {i n : ℕ}
    (h : valid st (cands i) dims = false) :
    attemptLoop valid cands st dims i (n + 1) =
      attemptLoop valid cands st dims (i + 1) n := by
  simp [attemptLoop, h]

/-- Complete case analysis of one requested copy: either the copy fails and
the state is untouched, or it commits a candidate that was validated against
the current state. -/
lemma placeCopy_cases (valid : List PlacementRecord → Vec2 → Vec2 → Bool)
    (cands : ℕ → Vec2) (st : List PlacementRecord) (dims : Vec2) (i b : ℕ) :
    ((placeCopy valid cands st dims i b).1 = .failed ∧
      (placeCopy valid cands st dims i b).2.1 = st) ∨
    (∃ p, valid st p dims = true ∧ (∃ m, p = cands m) ∧
      (placeCopy valid cands st dims i b).1 = .placed p dims ∧
      (placeCopy valid cands st dims i b).2.1 = add_to_grid st ⟨p, dims⟩) := by
  unfold placeCopy
  cases h : (attemptLoop valid cands st dims i b).1 with
  | none => exact Or.inl ⟨rfl, rfl⟩
  | some p =>
    obtain ⟨hv, hm⟩ := attemptLoop_fst_valid h
    exact Or.inr ⟨p, hv, hm, rfl, rfl⟩

lemma placeCopy_snd_le (valid : List PlacementRecord → Vec2 → Vec2 → Bool)
    (cands : ℕ → Vec2) (st : List PlacementRecord) (dims : Vec2) (i b : ℕ) :
    (placeCopy valid cands st dims i b).2.2 ≤ i + b := by
  unfold placeCopy
  cases h : (attemptLoop valid cands st dims i b).1 <;>
    simpa using attemptLoop_snd_le b i

lemma runCopies_nil (valid : List PlacementRecord → Vec2 → Vec2 → Bool)
    (cands : ℕ → Vec2) (b : ℕ) (st : List PlacementRecord) (i : ℕ) :
    runCopies valid cands b [] st i = ([], st, i) := rfl

lemma runCopies_cons (valid : List PlacementRecord → Vec2 → Vec2 → Bool)
    (cands : ℕ → Vec2) (b : ℕ) (d : Vec2) (ds : List Vec2)
    (st : List PlacementRecord) (i : ℕ) :
    runCopies valid cands b (d :: ds) st i =
      ((placeCopy valid cands st d i b).1 ::
          (runCopies valid cands b ds (placeCopy valid cands st d i b).2.1
            (placeCopy valid cands st d i b).2.2).1,
        (runCopies valid cands b ds (placeCopy valid cands st d i b).2.1
          (placeCopy valid cands st d i b).2.2).2) := rfl

lemma placedRecords_nil : placedRecords [] = [] := rfl

lemma placedRecords_cons_failed (os : List PlacementOutcome) :
    placedRecords (.failed :: os) = placedRecords os := by
  simp [placedRecords]

lemma placedRecords_cons_placed (p d : Vec2) (os : List PlacementOutcome) :
    placedRecords (.placed p d :: os) = ⟨p, d⟩ :: placedRecords os := by
  simp [placedRecords]

/-- The state at the end of a run is the initial state followed by exactly
the records of the `Placed` outcomes, in order. -/
lemma runCopies_state_eq (valid : List PlacementRecord → Vec2 → Vec2 → Bool)
    (cands : ℕ → Vec2) (b : ℕ) :
    ∀ (ds : List Vec2) (st : List PlacementRecord) (i : ℕ),
      (runCopies valid cands b ds st i).2.1 =
        st ++ placedRecords (runCopies valid cands b ds st i).1 := by
  intro ds
  induction ds with
  | nil => intro st i; simp [runCopies_nil, placedRecords_nil]
  | cons d ds ih =>
    intro st i
    rw [runCopies_cons]
    rcases placeCopy_cases valid cands st d i b with
      ⟨ho, hst⟩ | ⟨p, _, _, ho, hst⟩
    · rw [ho, placedRecords_cons_failed, hst, ← ih]
    · rw [ho, placedRecords_cons_placed, hst, ih]
      simp [add_to_grid]

lemma runCopies_length (valid : List PlacementRecord → Vec2 → Vec2 → Bool)
    (cands : ℕ → Vec2) (b : ℕ) :
    ∀ (ds : List Vec2) (st : List PlacementRecord) (i : ℕ),
      (runCopies valid cands b ds st i).1.length = ds.length := by
  intro ds
  induction ds with
  | nil => intro st i; simp [runCopies_nil]
  | cons d ds ih => intro st i; rw [runCopies_cons]; simp [ih]

lemma runCopies_snd_le (valid : List PlacementRecord → Vec2 → Vec2 → Bool)
    (cands : ℕ → Vec2) (b : ℕ) :
    ∀ (ds : List Vec2) (st : List PlacementRecord) (i : ℕ),
      (runCopies valid cands b ds st i).2.2 ≤ i + ds.length * b := by
  intro ds
  induction ds with
  | nil => intro st i; simp [runCopies_nil]
  | cons d ds ih =>
    intro st i
    rw [runCopies_cons]
    calc (runCopies valid cands b ds (placeCopy valid cands st d i b).2.1
            (placeCopy valid cands st d i b).2.2).2.2
        ≤ (placeCopy valid cands st d i b).2.2 + ds.length * b := by
          simpa using ih (placeCopy valid cands st d i b).2.1
            (placeCopy valid cands st d i b).2.2
      _ ≤ (i + b) + ds.length * b := by
          have := placeCopy_snd_le valid cands st d i b
          omega
      _ = i + (d :: ds).length * b := by
          simp [List.length_cons]
          ring

/-- Every `Placed` outcome of a run was validated, against the state current
at its commit, and its position is one of the sampled candidates. -/
lemma runCopies_placed_valid (valid : List PlacementRecord → Vec2 → Vec2 → Bool)
    (cands : ℕ → Vec2) (b : ℕ) :
    ∀ (ds : List Vec2) (st : List PlacementRecord) (i : ℕ) (p d : Vec2),
      PlacementOutcome.placed p d ∈ (runCopies valid cands b ds st i).1 →
        (∃ st', valid st' p d = true) ∧ ∃ m, p = cands m := by
  intro ds
  induction ds with
  | nil => intro st i p d h; simp [runCopies_nil] at h
  | cons d0 ds ih =>
    intro st i p d h
    rw [runCopies_cons] at h
    rcases List.mem_cons.mp h with h0 | htail
    · rcases placeCopy_cases valid cands st d0 i b with
        ⟨ho, _⟩ | ⟨q, hv, ⟨m, hm⟩, ho, _⟩
      · rw [ho] at h0; cases h0
      · rw [ho] at h0
        obtain ⟨rfl, rfl⟩ : q = p ∧ d0 = d := by
          constructor <;> (cases h0; rfl)
        exact ⟨⟨st, hv⟩, m, hm⟩
    · exact ih _ _ p d htail

/-- Generic pairwise invariant of the engine: if validation of a committed
candidate guarantees relation `Q` to every record of the state it was
validated against, then the run preserves pairwise `Q`. -/
lemma runCopies_pairwise (Q : PlacementRecord → PlacementRecord → Prop)
    {valid : List PlacementRecord → Vec2 → Vec2 → Bool}
    (cands : ℕ → Vec2) (b : ℕ)
    (hQ : ∀ st p d, valid st p d = true → ∀ r ∈ st, Q r ⟨p, d⟩) :
    ∀ (ds : List Vec2) (st : List PlacementRecord) (i : ℕ),
      st.Pairwise Q → ((runCopies valid cands b ds st i).2.1).Pairwise Q := by
  intro ds
  induction ds with
  | nil => intro st i h; simpa [runCopies_nil] using h
  | cons d ds ih =>
    intro st i h
    rw [runCopies_cons]
    rcases placeCopy_cases valid cands st d i b with
      ⟨_, hst⟩ | ⟨p, hv, _, _, hst⟩
    · exact ih _ _ (by rw [hst]; exact h)
    · refine ih _ _ ?_
      rw [hst]
      unfold add_to_grid
      rw [List.pairwise_append]
      refine ⟨h, List.pairwise_singleton Q _, ?_⟩
      intro r hr r' hr'
      rw [List.mem_singleton] at hr'
      subst hr'
      exact hQ st p d hv r hr

lemma DADCircle_is_valid_iff (area_center : Vec2)
    (area_radius : ℚ) (exclusion_zones : List (Vec2 × ℚ)) (grid_size padding : ℚ)
    (grid : List PlacementRecord) (pos dims : Vec2) :
    DADCircle.is_valid_position area_center area_radius exclusion_zones
        grid_size padding grid pos dims = true ↔
      sqrtGtB (dist2 pos area_center) area_radius = false ∧
        exclusion_zones.any (DADCircle.in_exclusion_zone pos) = false ∧
        overlapsGrid grid grid_size padding pos dims = false := by
  unfold DADCircle.is_valid_position
  split_ifs with h1 h2 h3 <;> simp_all

lemma DADSquare_is_valid_iff
    (exclusion_zones : List (Vec2 × Vec2)) (grid_size padding : ℚ)
    (grid : List PlacementRecord) (pos dims : Vec2) :
    DADSquare.is_valid_position exclusion_zones grid_size padding grid pos
        dims = true ↔
      exclusion_zones.any (inRectZone pos) = false ∧
        overlapsGrid grid grid_size padding pos dims = false := by
  unfold DADSquare.is_valid_position
  split_ifs with h1 h2 <;> simp_all

lemma DWSquare_is_valid_iff
    (exclusion_zones : List (Vec2 × Vec2)) (padding : ℚ)
    (positions : List PlacementRecord) (pos dims : Vec2) :
    DWSquare.is_valid_position exclusion_zones padding positions pos
        dims = true ↔
      exclusion_zones.any (inRectZone pos) = false ∧
        overlapsAll positions padding pos dims = false := by
  unfold DWSquare.is_valid_position
  split_ifs with h1 h2 <;> simp_all

lemma overlapsGrid_eq_false_iff (grid : List PlacementRecord)
    (grid_size padding : ℚ) (pos dims : Vec2) :
    overlapsGrid grid grid_size padding pos dims = false ↔
      ∀ r ∈ grid, grid_cell grid_size r.pos ∈ neighbors (grid_cell grid_size pos) →
        sqrtLtB (dist2 pos r.pos) (min_dist dims r.dims padding) = false := by
  unfold overlapsGrid
  rw [List.any_eq_false]
  constructor
  · intro h r hr hcell
    have h1 := h (grid_cell grid_size r.pos) hcell
    rw [Bool.not_eq_true, List.any_eq_false] at h1
    have hmem : r ∈ gridCellRecords grid grid_size (grid_cell grid_size r.pos) := by
      unfold gridCellRecords
      rw [List.mem_filter]
      exact ⟨hr, by simp⟩
    simpa using h1 r hmem
  · intro h nb hnb
    rw [Bool.not_eq_true, List.any_eq_false]
    intro r hrm
    unfold gridCellRecords at hrm
    rw [List.mem_filter] at hrm
    obtain ⟨hr, hcell⟩ := hrm
    have hcell' : grid_cell grid_size r.pos = nb := by simpa using hcell
    subst hcell'
    simpa using h r hr hnb

lemma overlapsAll_eq_false_iff (positions : List PlacementRecord)
    (padding : ℚ) (pos dims : Vec2) :
    overlapsAll positions padding pos dims = false ↔
      ∀ r ∈ positions,
        sqrtLtB (dist2 pos r.pos) (min_dist dims r.dims padding) = false := by
  unfold overlapsAll
  rw [List.any_eq_false]
  constructor
  · intro h r hr; simpa using h r hr
  · intro h r hr; simpa using h r hr

lemma runCopies_extends (valid : List PlacementRecord → Vec2 → Vec2 → Bool)
    (cands : ℕ → Vec2) (b : ℕ) (ds : List Vec2) (st : List PlacementRecord)
    (i : ℕ) :
    ∃ tl, (runCopies valid cands b ds st i).2.1 = st ++ tl :=
  ⟨placedRecords (runCopies valid cands b ds st i).1,
    runCopies_state_eq valid cands b ds st i⟩

lemma runCopies_append (valid : List PlacementRecord → Vec2 → Vec2 → Bool)
    (cands : ℕ → Vec2) (b : ℕ) (ds1 ds2 : List Vec2)
    (st : List PlacementRecord) (i : ℕ) :
    runCopies valid cands b (ds1 ++ ds2) st i =
      ((runCopies valid cands b ds1 st i).1 ++
          (runCopies valid cands b ds2 (runCopies valid cands b ds1 st i).2.1
            (runCopies valid cands b ds1 st i).2.2).1,
        (runCopies valid cands b ds2 (runCopies valid cands b ds1 st i).2.1
          (runCopies valid cands b ds1 st i).2.2).2) := by
  induction ds1 generalizing st i with
  | nil => simp [runCopies_nil]
  | cons d ds ih =>
    rw [List.cons_append, runCopies_cons, runCopies_cons, ih]
    rfl

lemma totalRecords_append_le (st tl : List PlacementRecord) :
    totalRecords st ≤ totalRecords (st ++ tl) := by
  simp [totalRecords]

lemma cellCount_append_le (grid_size : ℚ) (st tl : List PlacementRecord) :
    cellCount grid_size st ≤ cellCount grid_size (st ++ tl) := by
  apply Finset.card_le_card
  unfold occupiedCells
  intro c hc
  rw [List.mem_toFinset] at hc
  rw [List.mem_toFinset, List.map_append]
  exact List.mem_append_left _ hc

lemma length_flatMap_replicate (objs : List Vec2) (k : ℕ) :
    (objs.flatMap fun d => List.replicate k d).length = objs.length * k := by
  induction objs with
  | nil => simp
  | cons a l ih => simp [ih]; ring

lemma gridCellRecords_add_to_grid (st : List PlacementRecord)
    (r : PlacementRecord) (grid_size : ℚ) (c : ℤ × ℤ) :
    gridCellRecords (add_to_grid st r) grid_size c =
      if c = grid_cell grid_size r.pos then gridCellRecords st grid_size c ++ [r]
      else gridCellRecords st grid_size c := by
  unfold gridCellRecords add_to_grid
  rw [List.filter_append]
  by_cases h : c = grid_cell grid_size r.pos
  · rw [if_pos h]
    congr 1
    simp [h]
  · rw [if_neg h]
    have : grid_cell grid_size r.pos ≠ c := fun hc => h hc.symm
    simp [this]

lemma gridCellRecords_mono {st tl : List PlacementRecord} {grid_size : ℚ}
    {c : ℤ × ℤ} {r : PlacementRecord} (h : r ∈ gridCellRecords st grid_size c) :
    r ∈ gridCellRecords (st ++ tl) grid_size c := by
  unfold gridCellRecords at h ⊢
  rw [List.filter_append]
  exact List.mem_append_left _ h

lemma overlapsGrid_nil (grid_size padding : ℚ) (pos dims : Vec2) :
    overlapsGrid [] grid_size padding pos dims = false := by
  simp [overlapsGrid, gridCellRecords]

lemma attemptLoop_accept {valid : List PlacementRecord → Vec2 → Vec2 → Bool}
    {cands : ℕ → Vec2} {st : List PlacementRecord} {dims : Vec2} {i n : ℕ}
    (h : valid st (cands i) dims = true) :
    attemptLoop valid cands st dims i (n + 1) = (some (cands i), i + 1) := by
  simp [attemptLoop, h]

lemma placeCopy_accept (valid : List PlacementRecord → Vec2 → Vec2 → Bool)
    (cands : ℕ → Vec2) (st : List PlacementRecord) (dims : Vec2) (i b : ℕ)
    (h : valid st (cands i) dims = true) (hb : 0 < b) :
    placeCopy valid cands st dims i b =
      (.placed (cands i) dims, add_to_grid st ⟨cands i, dims⟩, i + 1) := by
  cases b with
  | zero => omega
  | succ n =>
    unfold placeCopy
    rw [attemptLoop_accept h]

/-- C9: when the supplied item list is empty, every run is a no-op success:
it returns an empty outcome sequence, raises no error, commits nothing and
performs no sampling iteration (the scripts return immediately from the
`if not selected_objects` guard). -/
theorem C9_empty_input_noop (area_center : Vec2) (area_radius : ℚ)
    (num_duplicates : ℕ) (zonesC : List (Vec2 × ℚ)) (zonesR : List (Vec2 × Vec2))
    (padding : ℚ) (cands : ℕ → Vec2) (area_min area_max : Vec2) (us vs : ℕ → ℚ)
    (zone_center : Vec2) (zone_size : ℚ) (distribute_only : Bool) :
    DADCircle.distribute_and_duplicate_objects area_center area_radius
        num_duplicates zonesC padding [] cands = ([], [], 0) ∧
      DADSquare.distribute_and_duplicate_objects area_min area_max
        num_duplicates zonesR padding [] us vs = ([], [], 0) ∧
      DWCircle.distribute_objects_in_area area_center area_radius zonesC
        padding [] cands = ([], [], 0) ∧
      DWSquare.distribute_objects_in_area area_min area_max zonesR padding []
        us vs = ([], [], 0) ∧
      Addon.distribute_and_duplicate_objects_circle area_center area_radius
        zone_center zone_size num_duplicates padding distribute_only []
        cands = ([], [], 0) := by
  refine ⟨?_, ?_, ?_, ?_, ?_⟩ <;> rfl

/-- C6: every run terminates with a complete outcome sequence (one outcome
per requested copy, `T = |objects| * (1 + num_duplicates)` in total) and
consumes at most `T * 1000` sampling iterations, each copy consuming at most
the budget of 1000 before committing or failing. -/
theorem C6_termination_bound (area_center : Vec2) (area_radius : ℚ)
    (num_duplicates : ℕ) (exclusion_zones : List (Vec2 × ℚ)) (padding : ℚ)
    (selected_objects : List Vec2) (cands : ℕ → Vec2)
    (valid : List PlacementRecord → Vec2 → Vec2 → Bool)
    (st : List PlacementRecord) (dims : Vec2) (i : ℕ) :
    (DADCircle.distribute_and_duplicate_objects area_center area_radius
          num_duplicates exclusion_zones padding selected_objects
          cands).1.length =
        selected_objects.length * (1 + num_duplicates) ∧
      (DADCircle.distribute_and_duplicate_objects area_center area_radius
          num_duplicates exclusion_zones padding selected_objects cands).2.2 ≤
        selected_objects.length * (1 + num_duplicates) * 1000 ∧
      (placeCopy valid cands st dims i 1000).2.2 ≤ i + 1000 := by
  refine ⟨?_, ?_, placeCopy_snd_le valid cands st dims i 1000⟩ <;>
    · unfold DADCircle.distribute_and_duplicate_objects
      by_cases h : selected_objects = []
      · rw [if_pos h, h]
        simp
      · rw [if_neg h]
        first
        | rw [runCopies_length, length_flatMap_replicate]
        | · have hb := runCopies_snd_le
              (DADCircle.is_valid_position area_center area_radius
                exclusion_zones (area_radius / 50) padding) cands 1000
              (selected_objects.flatMap fun d =>
                List.replicate (1 + num_duplicates) d) [] 0
            rw [length_flatMap_replicate] at hb
            omega

/-- C10: validation of a candidate is read-only: a rejected candidate leaves
the committed state (spatial index / recorded positions) untouched and the
loop simply moves to the next sample; the state changes only when a copy
commits, and then exactly by its own record. -/
theorem C10_validation_read_only
    (valid : List PlacementRecord → Vec2 → Vec2 → Bool) (cands : ℕ → Vec2)
    (st : List PlacementRecord) (dims : Vec2) (i n b : ℕ) :
    (valid st (cands i) dims = false →
        attemptLoop valid cands st dims i (n + 1) =
          attemptLoop valid cands st dims (i + 1) n) ∧
      ((placeCopy valid cands st dims i b).1 = .failed ∧
          (placeCopy valid cands st dims i b).2.1 = st ∨
        ∃ p, (placeCopy valid cands st dims i b).1 = .placed p dims ∧
          (placeCopy valid cands st dims i b).2.1 = add_to_grid st ⟨p, dims⟩) := by
  constructor
  · exact attemptLoop_reject
  · rcases placeCopy_cases valid cands st dims i b with ⟨h1, h2⟩ | ⟨p, _, _, h1, h2⟩
    · exact Or.inl ⟨h1, h2⟩
    · exact Or.inr ⟨p, h1, h2⟩

theorem C10_validation_read_only_witness :
    DADCircle.is_valid_position ⟨0, 0⟩ (-1) [] ((-1) / 50) (1 / 10) [] ⟨0, 0⟩
        ⟨1, 1⟩ = false ∧
      attemptLoop
          (DADCircle.is_valid_position ⟨0, 0⟩ (-1) [] ((-1) / 50) (1 / 10))
          (fun _ => ⟨0, 0⟩) [] ⟨1, 1⟩ 0 1000 =
        attemptLoop
          (DADCircle.is_valid_position ⟨0, 0⟩ (-1) [] ((-1) / 50) (1 / 10))
          (fun _ => ⟨0, 0⟩) [] ⟨1, 1⟩ 1 999 :=
  ⟨by norm_num [DADCircle.is_valid_position, sqrtGtB],
    (C10_validation_read_only
        (DADCircle.is_valid_position ⟨0, 0⟩ (-1) [] ((-1) / 50) (1 / 10))
        (fun _ => ⟨0, 0⟩) [] ⟨1, 1⟩ 0 999 1000).1
      (by norm_num [DADCircle.is_valid_position, sqrtGtB])⟩

/-- C7: a copy whose budget is exhausted is never inserted (the state change
of one copy is exactly `add_to_grid` of its own record when it commits, and
nothing otherwise), and during a run both the total record count and the
number of occupied grid cells of the spatial index never decrease. -/
theorem C7_monotonic_index_growth
    (valid : List PlacementRecord → Vec2 → Vec2 → Bool) (cands : ℕ → Vec2)
    (st : List PlacementRecord) (dims : Vec2) (i b : ℕ) (grid_size : ℚ)
    (ds1 ds2 : List Vec2) :
    ((placeCopy valid cands st dims i b).2.1 =
        match (placeCopy valid cands st dims i b).1 with
        | .placed p d => add_to_grid st ⟨p, d⟩
        | .failed => st) ∧
      totalRecords (runCopies valid cands b ds1 st i).2.1 ≤
        totalRecords (runCopies valid cands b (ds1 ++ ds2) st i).2.1 ∧
      cellCount grid_size (runCopies valid cands b ds1 st i).2.1 ≤
        cellCount grid_size (runCopies valid cands b (ds1 ++ ds2) st i).2.1 := by
  refine ⟨?_, ?_, ?_⟩
  · rcases placeCopy_cases valid cands st dims i b with ⟨h1, h2⟩ | ⟨p, _, _, h1, h2⟩
    · rw [h1, h2]
    · rw [h1, h2]
  · rw [runCopies_append]
    obtain ⟨tl, htl⟩ := runCopies_extends valid cands b ds2
      (runCopies valid cands b ds1 st i).2.1 (runCopies valid cands b ds1 st i).2.2
    show totalRecords (runCopies valid cands b ds1 st i).2.1 ≤
      totalRecords (runCopies valid cands b ds2
        (runCopies valid cands b ds1 st i).2.1
        (runCopies valid cands b ds1 st i).2.2).2.1
    rw [htl]
    exact totalRecords_append_le _ _
  · rw [runCopies_append]
    obtain ⟨tl, htl⟩ := runCopies_extends valid cands b ds2
      (runCopies valid cands b ds1 st i).2.1 (runCopies valid cands b ds1 st i).2.2
    show cellCount grid_size (runCopies valid cands b ds1 st i).2.1 ≤
      cellCount grid_size (runCopies valid cands b ds2
        (runCopies valid cands b ds1 st i).2.1
        (runCopies valid cands b ds1 st i).2.2).2.1
    rw [htl]
    exact cellCount_append_le _ _ _

/-- C8: every inserted record goes to exactly one cell, the cell
`(floor(pos.x / cellSize), floor(pos.y / cellSize))` of its own position
(this also covers negative coordinates, since the embedding uses the
mathematical floor), it is never replicated into neighbor cells, and it stays
locatable via that cell for the rest of the run. -/
theorem C8_single_cell_insertion (grid_size : ℚ) (st : List PlacementRecord)
    (r : PlacementRecord) (c : ℤ × ℤ)
    (valid : List PlacementRecord → Vec2 → Vec2 → Bool) (cands : ℕ → Vec2)
    (b : ℕ) (ds : List Vec2) (i : ℕ) :
    (gridCellRecords (add_to_grid st r) grid_size c =
        if c = grid_cell grid_size r.pos then
          gridCellRecords st grid_size c ++ [r]
        else gridCellRecords st grid_size c) ∧
      (r ∈ gridCellRecords st grid_size c →
        r ∈ gridCellRecords (runCopies valid cands b ds st i).2.1 grid_size c) := by
  constructor
  · exact gridCellRecords_add_to_grid st r grid_size c
  · intro h
    obtain ⟨tl, htl⟩ := runCopies_extends valid cands b ds st i
    rw [htl]
    exact gridCellRecords_mono h

theorem C8_single_cell_insertion_witness :
    (⟨⟨-2, -2⟩, ⟨1, 1⟩⟩ : PlacementRecord) ∈
        gridCellRecords [⟨⟨-2, -2⟩, ⟨1, 1⟩⟩] 2 (-1, -1) ∧
      (⟨⟨-2, -2⟩, ⟨1, 1⟩⟩ : PlacementRecord) ∈
        gridCellRecords
          (runCopies (DADCircle.is_valid_position ⟨0, 0⟩ 100 [] 2 1)
              (fun _ => ⟨0, 0⟩) 1000 [⟨1, 1⟩] [⟨⟨-2, -2⟩, ⟨1, 1⟩⟩] 0).2.1
          2 (-1, -1) :=
  ⟨by simp [gridCellRecords, grid_cell]; norm_num,
    (C8_single_cell_insertion 2 [⟨⟨-2, -2⟩, ⟨1, 1⟩⟩] ⟨⟨-2, -2⟩, ⟨1, 1⟩⟩ (-1, -1)
        (DADCircle.is_valid_position ⟨0, 0⟩ 100 [] 2 1) (fun _ => ⟨0, 0⟩) 1000
        [⟨1, 1⟩] 0).2
      (by simp [gridCellRecords, grid_cell]; norm_num)⟩

/-- C2: for every run and every pair of committed outcomes of the grid-based
circle engine, if the two positions lie in each other's 3×3 grid-cell
neighborhood of the spatial index then their planar distance is at least
`max(f1.x, f1.y)/2 + max(f2.x, f2.y)/2 + padding`; for the linear engine of
DistributeWithinSquare.py the same separation holds for all pairs
unconditionally. -/
theorem C2_nonoverlap (area_center : Vec2) (area_radius : ℚ)
    (num_duplicates : ℕ) (exclusion_zones : List (Vec2 × ℚ)) (padding : ℚ)
    (selected_objects : List Vec2) (cands : ℕ → Vec2) (area_min area_max : Vec2)
    (zonesR : List (Vec2 × Vec2)) (paddingS : ℚ) (objsS : List Vec2)
    (us vs : ℕ → ℚ) :
    (placedRecords (DADCircle.distribute_and_duplicate_objects area_center
          area_radius num_duplicates exclusion_zones padding selected_objects
          cands).1).Pairwise
      (fun r1 r2 =>
        grid_cell (area_radius / 50) r1.pos ∈
            neighbors (grid_cell (area_radius / 50) r2.pos) →
          (min_dist r1.dims r2.dims padding : ℝ) ≤
            Real.sqrt (dist2 r1.pos r2.pos : ℝ)) ∧
      (placedRecords (DWSquare.distribute_objects_in_area area_min area_max
          zonesR paddingS objsS us vs).1).Pairwise
      (fun r1 r2 =>
        (min_dist r1.dims r2.dims paddingS : ℝ) ≤
          Real.sqrt (dist2 r1.pos r2.pos : ℝ)) := by
  constructor
  · unfold DADCircle.distribute_and_duplicate_objects
    by_cases h : selected_objects = []
    · rw [if_pos h]
      exact List.Pairwise.nil
    · rw [if_neg h]
      have hQ : ∀ st p d,
          DADCircle.is_valid_position area_center area_radius exclusion_zones
            (area_radius / 50) padding st p d = true →
          ∀ r ∈ st,
            grid_cell (area_radius / 50) r.pos ∈
                neighbors (grid_cell (area_radius / 50)
                  (PlacementRecord.mk p d).pos) →
              (min_dist r.dims (PlacementRecord.mk p d).dims padding : ℝ) ≤
                Real.sqrt (dist2 r.pos (PlacementRecord.mk p d).pos : ℝ) := by
        intro st p d hv r hr hcell
        rw [DADCircle_is_valid_iff] at hv
        obtain ⟨-, -, hov⟩ := hv
        rw [overlapsGrid_eq_false_iff] at hov
        have hp := hov r hr hcell
        rw [dist2_comm p r.pos, min_dist_comm d r.dims] at hp
        exact (sqrtLtB_eq_false_iff (dist2_nonneg r.pos p)).mp hp
      have hpair := runCopies_pairwise
        (fun r1 r2 =>
          grid_cell (area_radius / 50) r1.pos ∈
              neighbors (grid_cell (area_radius / 50) r2.pos) →
            (min_dist r1.dims r2.dims padding : ℝ) ≤
              Real.sqrt (dist2 r1.pos r2.pos : ℝ))
        cands 1000 hQ
        (selected_objects.flatMap fun d => List.replicate (1 + num_duplicates) d)
        [] 0 List.Pairwise.nil
      rw [runCopies_state_eq] at hpair
      simpa using hpair
  · unfold DWSquare.distribute_objects_in_area
    by_cases h : objsS = []
    · rw [if_pos h]
      exact List.Pairwise.nil
    · rw [if_neg h]
      have hQ : ∀ st p d,
          DWSquare.is_valid_position zonesR paddingS st p d = true →
          ∀ r ∈ st,
            (min_dist r.dims (PlacementRecord.mk p d).dims paddingS : ℝ) ≤
              Real.sqrt (dist2 r.pos (PlacementRecord.mk p d).pos : ℝ) := by
        intro st p d hv r hr
        rw [DWSquare_is_valid_iff] at hv
        obtain ⟨-, hov⟩ := hv
        rw [overlapsAll_eq_false_iff] at hov
        have hp := hov r hr
        rw [dist2_comm p r.pos, min_dist_comm d r.dims] at hp
        exact (sqrtLtB_eq_false_iff (dist2_nonneg r.pos p)).mp hp
      have hpair := runCopies_pairwise
        (fun r1 r2 =>
          (min_dist r1.dims r2.dims paddingS : ℝ) ≤
            Real.sqrt (dist2 r1.pos r2.pos : ℝ))
        (fun n => rectSample area_min area_max (us n) (vs n)) 1000 hQ objsS []
        0 List.Pairwise.nil
      rw [runCopies_state_eq] at hpair
      simpa using hpair

theorem C2_nonoverlap_witness :
    (placedRecords (DADCircle.distribute_and_duplicate_objects ⟨0, 0⟩ 10 0 []
          (1 / 10) [] fun _ => ⟨0, 0⟩).1).Pairwise
      (fun r1 r2 =>
        grid_cell ((10 : ℚ) / 50) r1.pos ∈
            neighbors (grid_cell ((10 : ℚ) / 50) r2.pos) →
          (min_dist r1.dims r2.dims (1 / 10) : ℝ) ≤
            Real.sqrt (dist2 r1.pos r2.pos : ℝ)) ∧
      (placedRecords (DWSquare.distribute_objects_in_area ⟨0, 0⟩ ⟨1, 1⟩ []
          (1 / 10) [] (fun _ => 0) fun _ => 0).1).Pairwise
      (fun r1 r2 =>
        (min_dist r1.dims r2.dims (1 / 10) : ℝ) ≤
          Real.sqrt (dist2 r1.pos r2.pos : ℝ)) :=
  C2_nonoverlap ⟨0, 0⟩ 10 0 [] (1 / 10) [] (fun _ => ⟨0, 0⟩) ⟨0, 0⟩ ⟨1, 1⟩ []
    (1 / 10) [] (fun _ => 0) fun _ => 0

/-- C3: every committed position of the circle engine lies within the circle
(distance from the center at most the radius) and outside every configured
exclusion zone; for the rectangle engine every committed position lies inside
the sampling box (even though its validation has no containment check,
because the sampler only draws coordinates inside the rectangle) and outside
every rectangular exclusion zone. -/
theorem C3_containment (area_center : Vec2) (area_radius : ℚ)
    (num_duplicates : ℕ) (exclusion_zones : List (Vec2 × ℚ)) (padding : ℚ)
    (selected_objects : List Vec2) (cands : ℕ → Vec2)
    (area_min area_max : Vec2) (zonesR : List (Vec2 × Vec2)) (paddingS : ℚ)
    (objsS : List Vec2) (us vs : ℕ → ℚ) (hax : area_min.x ≤ area_max.x)
    (hay : area_min.y ≤ area_max.y) (hu : ∀ n, 0 ≤ us n ∧ us n ≤ 1)
    (hv : ∀ n, 0 ≤ vs n ∧ vs n ≤ 1) :
    (∀ p d, PlacementOutcome.placed p d ∈
        (DADCircle.distribute_and_duplicate_objects area_center area_radius
          num_duplicates exclusion_zones padding selected_objects cands).1 →
      Real.sqrt (dist2 p area_center : ℝ) ≤ (area_radius : ℝ) ∧
        ∀ z ∈ exclusion_zones, ¬ Real.sqrt (dist2 p z.1 : ℝ) < (z.2 : ℝ)) ∧
      ∀ p d, PlacementOutcome.placed p d ∈
        (DADSquare.distribute_and_duplicate_objects area_min area_max
          num_duplicates zonesR paddingS objsS us vs).1 →
      (area_min.x ≤ p.x ∧ p.x ≤ area_max.x ∧ area_min.y ≤ p.y ∧
          p.y ≤ area_max.y) ∧
        ∀ z ∈ zonesR,
          ¬ ((z.1.x ≤ p.x ∧ p.x ≤ z.2.x) ∧ (z.1.y ≤ p.y ∧ p.y ≤ z.2.y)) := by
  constructor
  · intro p d hmem
    unfold DADCircle.distribute_and_duplicate_objects at hmem
    by_cases h : selected_objects = []
    · rw [if_pos h] at hmem
      cases hmem
    · rw [if_neg h] at hmem
      obtain ⟨⟨st, hvalid⟩, -⟩ := runCopies_placed_valid _ _ _ _ _ _ _ _ hmem
      rw [DADCircle_is_valid_iff] at hvalid
      obtain ⟨hb, hz, -⟩ := hvalid
      constructor
      · exact (sqrtGtB_eq_false_iff (dist2_nonneg p area_center)).mp hb
      · intro z hzmem
        rw [List.any_eq_false] at hz
        have := hz z hzmem
        rw [Bool.not_eq_true] at this
        unfold DADCircle.in_exclusion_zone at this
        have hle := (sqrtLtB_eq_false_iff (dist2_nonneg p z.1)).mp this
        exact not_lt.mpr hle
  · intro p d hmem
    unfold DADSquare.distribute_and_duplicate_objects at hmem
    by_cases h : objsS = []
    · rw [if_pos h] at hmem
      cases hmem
    · rw [if_neg h] at hmem
      obtain ⟨⟨st, hvalid⟩, ⟨m, hm⟩⟩ := runCopies_placed_valid _ _ _ _ _ _ _ _ hmem
      rw [DADSquare_is_valid_iff] at hvalid
      obtain ⟨hz, -⟩ := hvalid
      constructor
      · subst hm
        obtain ⟨h1, h2, h3, h4⟩ := rectSample_mem hax hay (hu m).1 (hu m).2
          (hv m).1 (hv m).2
        exact ⟨h1, h2, h3, h4⟩
      · intro z hzmem
        rw [List.any_eq_false] at hz
        have := hz z hzmem
        rw [Bool.not_eq_true] at this
        unfold inRectZone at this
        simp only [Bool.and_eq_false_iff, decide_eq_false_iff_not] at this
        tauto

theorem C3_containment_witness :
    (∀ p d, PlacementOutcome.placed p d ∈
        (DADCircle.distribute_and_duplicate_objects ⟨0, 0⟩ 10 0 [] (1 / 10)
          [⟨1, 1⟩] fun _ => ⟨0, 0⟩).1 →
      Real.sqrt (dist2 p ⟨0, 0⟩ : ℝ) ≤ ((10 : ℚ) : ℝ) ∧
        ∀ z ∈ ([] : List (Vec2 × ℚ)),
          ¬ Real.sqrt (dist2 p z.1 : ℝ) < (z.2 : ℝ)) ∧
      ∀ p d, PlacementOutcome.placed p d ∈
        (DADSquare.distribute_and_duplicate_objects ⟨0, 0⟩ ⟨1, 1⟩ 0 [] (1 / 10)
          [⟨1, 1⟩] (fun _ => 0) fun _ => 0).1 →
      ((⟨0, 0⟩ : Vec2).x ≤ p.x ∧ p.x ≤ (⟨1, 1⟩ : Vec2).x ∧
          (⟨0, 0⟩ : Vec2).y ≤ p.y ∧ p.y ≤ (⟨1, 1⟩ : Vec2).y) ∧
        ∀ z ∈ ([] : List (Vec2 × Vec2)),
          ¬ ((z.1.x ≤ p.x ∧ p.x ≤ z.2.x) ∧ (z.1.y ≤ p.y ∧ p.y ≤ z.2.y)) :=
  C3_containment ⟨0, 0⟩ 10 0 [] (1 / 10) [⟨1, 1⟩] (fun _ => ⟨0, 0⟩) ⟨0, 0⟩
    ⟨1, 1⟩ [] (1 / 10) [⟨1, 1⟩] (fun _ => 0) (fun _ => 0) (by norm_num)
    (by norm_num) (fun n => by norm_num) (fun n => by norm_num)

lemma dist2R_polar (cx cy a θ : ℝ) :
    dist2R (cx + a * Real.cos θ, cy + a * Real.sin θ) (cx, cy) = a ^ 2 := by
  have h := Real.sin_sq_add_cos_sq θ
  show (cx + a * Real.cos θ - cx) ^ 2 + (cy + a * Real.sin θ - cy) ^ 2 = a ^ 2
  linear_combination a ^ 2 * h

/-- C1 (amended): the samplers of DistributeAndDuplicateWithinCircle.py and
of the addon's circle mode are area-uniform: from generator value `u` the
candidate lies at squared distance `u * R^2` from the center (radius
`sqrt(u) * R`); DistributeWithinCircle.py instead draws the radius uniformly
from `[0, R]`, putting the candidate at squared distance `(u * R)^2`. -/
theorem C1_area_uniform_sampling (cx cy area_radius u angle : ℝ)
    (hu : 0 ≤ u) :
    dist2R (DADCircle.rand_position cx cy area_radius u angle) (cx, cy) =
        u * area_radius ^ 2 ∧
      dist2R (Addon.random_position_circle cx cy area_radius u angle)
          (cx, cy) =
        u * area_radius ^ 2 ∧
      dist2R (DWCircle.rand_position cx cy area_radius u angle) (cx, cy) =
        (u * area_radius) ^ 2 := by
  have h1 : Real.sqrt u ^ 2 = u := Real.sq_sqrt hu
  refine ⟨?_, ?_, ?_⟩
  · unfold DADCircle.rand_position DADCircle.rand_radius
    rw [dist2R_polar, mul_pow, h1]
  · unfold Addon.random_position_circle Addon.rand_radius
    rw [dist2R_polar, mul_pow, h1]
  · unfold DWCircle.rand_position DWCircle.radius_sample
    rw [dist2R_polar]
    ring

theorem C1_area_uniform_sampling_witness :
    (0 : ℝ) ≤ 1 / 4 ∧
      dist2R (DADCircle.rand_position 0 0 1 (1 / 4) 0) (0, 0) =
          1 / 4 * 1 ^ 2 ∧
        dist2R (Addon.random_position_circle 0 0 1 (1 / 4) 0) (0, 0) =
          1 / 4 * 1 ^ 2 ∧
        dist2R (DWCircle.rand_position 0 0 1 (1 / 4) 0) (0, 0) =
          (1 / 4 * 1) ^ 2 :=
  ⟨by norm_num, C1_area_uniform_sampling 0 0 1 (1 / 4) 0 (by norm_num)⟩

/-- C1 counterexample: the claim states that every circular sampler computes
the radius as `sqrt(uniform(0,1)) * R`; DistributeWithinCircle.py does not —
at `u = 1/4`, `R = 1` its radius is `1/4`, not `sqrt(1/4) * 1 = 1/2`, and the
sampled point lies at squared distance `1/16 ≠ u * R^2 = 1/4` from the
center. -/
theorem C1_radius_uniform_counterexample :
    DWCircle.radius_sample (1 / 4) 1 ≠ Real.sqrt (1 / 4) * 1 ∧
      dist2R (DWCircle.rand_position 0 0 1 (1 / 4) 0) (0, 0) ≠
        1 / 4 * 1 ^ 2 := by
  have hs : Real.sqrt (1 / 4 : ℝ) = 1 / 2 := by
    rw [show (1 / 4 : ℝ) = (1 / 2) ^ 2 by norm_num,
      Real.sqrt_sq (by norm_num : (0 : ℝ) ≤ 1 / 2)]
  constructor
  · unfold DWCircle.radius_sample
    rw [hs]
    norm_num
  · unfold DWCircle.rand_position DWCircle.radius_sample
    rw [dist2R_polar]
    norm_num

/-- C5 (amended): in DistributeAndDuplicateWithinCircle.py and in the addon a
candidate is rejected by a circular exclusion zone exactly when its distance
to the zone center is strictly less than the zone radius (the boundary is not
excluded); DistributeWithinCircle.py uses a non-strict comparison, so there a
candidate at distance exactly the zone radius IS excluded. -/
theorem C5_exclusion_zone_boundary (pos zone_center : Vec2) (zone_radius : ℚ) :
    (DADCircle.in_exclusion_zone pos (zone_center, zone_radius) = true ↔
        Real.sqrt (dist2 pos zone_center : ℝ) < (zone_radius : ℝ)) ∧
      (Addon.is_inside_exclusion_zone_circle zone_center zone_radius pos =
          true ↔
        Real.sqrt (dist2 pos zone_center : ℝ) < (zone_radius : ℝ)) ∧
      (DWCircle.in_exclusion_zone pos (zone_center, zone_radius) = true ↔
        Real.sqrt (dist2 pos zone_center : ℝ) ≤ (zone_radius : ℝ)) := by
  refine ⟨?_, ?_, ?_⟩
  · exact sqrtLtB_eq_true_iff (dist2_nonneg pos zone_center)
  · exact sqrtLtB_eq_true_iff (dist2_nonneg pos zone_center)
  · exact sqrtLeB_eq_true_iff (dist2_nonneg pos zone_center)

/-- C5 counterexample: the claim states that a candidate at distance exactly
the zone radius is never excluded; DistributeWithinCircle.py excludes the
candidate `(1, 0)` for the zone `((0, 0), 1)` although its distance equals
the radius. -/
theorem C5_boundary_counterexample :
    DWCircle.in_exclusion_zone ⟨1, 0⟩ (⟨0, 0⟩, 1) = true ∧
      ¬ Real.sqrt (dist2 ⟨1, 0⟩ ⟨0, 0⟩ : ℝ) < ((1 : ℚ) : ℝ) := by
  have hd : dist2 (⟨1, 0⟩ : Vec2) ⟨0, 0⟩ = 1 := by
    norm_num [dist2]
  constructor
  · unfold DWCircle.in_exclusion_zone sqrtLeB
    rw [hd]
    norm_num
  · rw [hd]
    rw [show (((1 : ℚ) : ℝ)) = (1 : ℝ) by norm_num, Real.sqrt_one]
    exact lt_irrefl 1

lemma runCopies_all_failed {valid : List PlacementRecord → Vec2 → Vec2 → Bool}
    {cands : ℕ → Vec2} {b : ℕ} (hvalid : ∀ st p d, valid st p d = false) :
    ∀ (ds : List Vec2) (st : List PlacementRecord) (i : ℕ) (o : PlacementOutcome),
      o ∈ (runCopies valid cands b ds st i).1 → o = .failed := by
  intro ds
  induction ds with
  | nil => intro st i o ho; simp [runCopies_nil] at ho
  | cons d ds ih =>
    intro st i o ho
    rw [runCopies_cons] at ho
    rcases List.mem_cons.mp ho with h0 | ht
    · rcases placeCopy_cases valid cands st d i b with ⟨h1, _⟩ | ⟨p, hv, _, _, _⟩
      · rw [h0, h1]
      · rw [hvalid st p d] at hv
        cases hv
    · exact ih _ _ _ ht

/-- C4 (amended): the scripts perform no configuration validation and raise
no error: a run with a non-positive circle radius still executes the whole
placement loop and reports every copy as failed (every candidate fails the
containment check), instead of aborting fail-fast. -/
theorem C4_no_configuration_validation (area_center : Vec2) (area_radius : ℚ)
    (hR : area_radius < 0) (num_duplicates : ℕ)
    (exclusion_zones : List (Vec2 × ℚ)) (padding : ℚ)
    (selected_objects : List Vec2) (cands : ℕ → Vec2) :
    ∀ o ∈ (DADCircle.distribute_and_duplicate_objects area_center area_radius
        num_duplicates exclusion_zones padding selected_objects cands).1,
      o = PlacementOutcome.failed := by
  intro o ho
  unfold DADCircle.distribute_and_duplicate_objects at ho
  by_cases h : selected_objects = []
  · rw [if_pos h] at ho
    cases ho
  · rw [if_neg h] at ho
    have hvalid : ∀ st p d,
        DADCircle.is_valid_position area_center area_radius exclusion_zones
          (area_radius / 50) padding st p d = false := by
      intro st p d
      have h1 : sqrtGtB (dist2 p area_center) area_radius = true := by
        simp [sqrtGtB, hR]
      unfold DADCircle.is_valid_position
      rw [h1]
      rfl
    exact runCopies_all_failed hvalid _ _ _ o ho

theorem C4_no_configuration_validation_witness :
    (-1 : ℚ) < 0 ∧
      ∀ o ∈ (DADCircle.distribute_and_duplicate_objects ⟨0, 0⟩ (-1) 0 []
          (1 / 10) [⟨1, 1⟩] fun _ => ⟨0, 0⟩).1,
        o = PlacementOutcome.failed :=
  ⟨by norm_num,
    C4_no_configuration_validation ⟨0, 0⟩ (-1) (by norm_num) 0 [] (1 / 10)
      [⟨1, 1⟩] fun _ => ⟨0, 0⟩⟩

/-- C4 counterexample: the claim states that a run supplied with a
non-positive rectangle extent raises InvalidConfiguration before any
placement work begins, so no item is placed.  In the code there is no such
check: with `area_min = (1, 1)` above `area_max = (0, 0)` (negative extents,
negative grid cell size), DistributeAndDuplicateWithinSquare.py still places
the item at the first sampled candidate and mutates the index. -/
theorem C4_counterexample :
    (DADSquare.distribute_and_duplicate_objects ⟨1, 1⟩ ⟨0, 0⟩ 0 [] (1 / 10)
          [⟨1, 1⟩] (fun _ => 0) fun _ => 0).1 =
        [PlacementOutcome.placed ⟨1, 1⟩ ⟨1, 1⟩] ∧
      (DADSquare.distribute_and_duplicate_objects ⟨1, 1⟩ ⟨0, 0⟩ 0 [] (1 / 10)
          [⟨1, 1⟩] (fun _ => 0) fun _ => 0).2.1 =
        [⟨⟨1, 1⟩, ⟨1, 1⟩⟩] := by
  have hcand : rectSample ⟨1, 1⟩ ⟨0, 0⟩ 0 0 = (⟨1, 1⟩ : Vec2) := by
    unfold rectSample random_uniform
    norm_num
  have hvalid : DADSquare.is_valid_position []
      (DADSquare.grid_size ⟨1, 1⟩ ⟨0, 0⟩) (1 / 10) []
      ((fun n => rectSample ⟨1, 1⟩ ⟨0, 0⟩ ((fun _ => (0 : ℚ)) n)
        ((fun _ => (0 : ℚ)) n)) 0) ⟨1, 1⟩ = true := by
    rw [DADSquare_is_valid_iff]
    exact ⟨rfl, overlapsGrid_nil _ _ _ _⟩
  have hds : (([⟨1, 1⟩] : List Vec2).flatMap fun d =>
      List.replicate (1 + 0) d) = [⟨1, 1⟩] := rfl
  have hpc := placeCopy_accept
    (DADSquare.is_valid_position [] (DADSquare.grid_size ⟨1, 1⟩ ⟨0, 0⟩) (1 / 10))
    (fun n => rectSample ⟨1, 1⟩ ⟨0, 0⟩ ((fun _ => (0 : ℚ)) n) ((fun _ => (0 : ℚ)) n))
    [] ⟨1, 1⟩ 0 1000 hvalid (by norm_num)
  constructor
  · unfold DADSquare.distribute_and_duplicate_objects
    rw [if_neg (by simp), hds, runCopies_cons, hpc]
    simp [hcand, runCopies_nil]
  · unfold DADSquare.distribute_and_duplicate_objects
    rw [if_neg (by simp), hds, runCopies_cons, hpc]
    simp [hcand, runCopies_nil, add_to_grid]

end Blender
